import Mathlib

/-!
Verification of the django-openid relying-party endpoints (`django_openid/consumer.py`,
`django_openid/auth.py`) against their natural-language specification.

The code is Python 2, where `str` is a byte string, so every string flowing through the
endpoints is embedded as a `List Nat` of byte values.  The colon separator `':'` is byte 58,
`'?'` is byte 63, `'='` (base64 padding) is byte 61.

External standard-library collaborators (`hashlib.sha1`, `base64.urlsafe_b64encode`/
`urlsafe_b64decode`, `zlib`, `pickle`) are embedded as executable Lean functions: SHA-1 and
base64 are implemented in full; `zlib` and `pickle` (whose byte formats are irrelevant to
every claim) are modelled as faithful lossless stand-ins, documented at their definitions.
-/

namespace DjangoOpenid

/-! ## Python byte-string primitives

`pycount sep s` is Python's `s.count(sep)` for a single-byte separator, and `pysplit sep s`
is Python's `s.split(sep)`. -/

def pycount (sep : Nat) : List Nat → Nat
  | [] => 0
  | x :: xs => (if x = sep then 1 else 0) + pycount sep xs

def pysplit (sep : Nat) : List Nat → List (List Nat)
  | [] => [[]]
  | x :: xs =>
    if x = sep then [] :: pysplit sep xs
    else
      match pysplit sep xs with
      | [] => [[x]]
      | h :: t => (x :: h) :: t

/-- Flip bit `k` of the byte at index `i` of a byte string (out-of-range indices leave the
string unchanged, as `List.set` does). -/
def flipAt (i k : Nat) (s : List Nat) : List Nat :=
  s.set i (s.getD i 0 ^^^ (1 <<< k))

/-! ## hashlib.sha1(...).hexdigest() — external stdlib collaborator, implemented in full

A complete executable SHA-1 over byte lists (bytes are reduced mod 256 when packed into
words, so the function is total on arbitrary `List Nat`). -/

def rotl32 (x n : Nat) : Nat := ((x <<< n) ||| (x >>> (32 - n))) % 4294967296

/-- Merkle–Damgård padding: append 0x80, zero-fill to 56 mod 64, then the bit length as
eight big-endian bytes. -/
def sha1pad (msg : List Nat) : List Nat :=
  let n := msg.length
  let z := (119 - n % 64) % 64
  msg ++ 128 :: (List.replicate z 0 ++ (List.range 8).map (fun i => ((8 * n) >>> ((7 - i) * 8)) % 256))

/-- Pack bytes into big-endian 32-bit words, four at a time. -/
def words16 : List Nat → List Nat
  | a :: b :: c :: d :: rest =>
    (a % 256 * 16777216 + b % 256 * 65536 + c % 256 * 256 + d % 256) :: words16 rest
  | _ => []

/-- Extend the 16 chunk words to 80; the accumulator holds the words most recent first. -/
def expandW : Nat → List Nat → List Nat
  | 0, rws => rws
  | n + 1, rws =>
    let w := rotl32 ((rws.getD 2 0 ^^^ rws.getD 7 0) ^^^ (rws.getD 13 0 ^^^ rws.getD 15 0)) 1
    expandW n (w :: rws)

def sha1f (i b c d : Nat) : Nat :=
  if i < 20 then (b &&& c) ||| ((b ^^^ 4294967295) &&& d)
  else if i < 40 then (b ^^^ c) ^^^ d
  else if i < 60 then ((b &&& c) ||| (b &&& d)) ||| (c &&& d)
  else (b ^^^ c) ^^^ d

def sha1k (i : Nat) : Nat :=
  if i < 20 then 1518500249
  else if i < 40 then 1859775393
  else if i < 60 then 2400959708
  else 3395469782

def sha1round (st : Nat × Nat × Nat × Nat × Nat) (iw : Nat × Nat) : Nat × Nat × Nat × Nat × Nat :=
  match st, iw with
  | (a, b, c, d, e), (i, w) =>
    ((rotl32 a 5 + sha1f i b c d + e + sha1k i + w) % 4294967296, a, rotl32 b 30, c, d)

def sha1chunk (h : Nat × Nat × Nat × Nat × Nat) (chunk : List Nat) : Nat × Nat × Nat × Nat × Nat :=
  match h with
  | (h0, h1, h2, h3, h4) =>
    let ws := (expandW 64 (words16 chunk).reverse).reverse
    match ((List.range 80).zip ws).foldl sha1round (h0, h1, h2, h3, h4) with
    | (a, b, c, d, e) =>
      ((h0 + a) % 4294967296, (h1 + b) % 4294967296, (h2 + c) % 4294967296,
       (h3 + d) % 4294967296, (h4 + e) % 4294967296)

/-- Split into 64-byte chunks; the first argument is fuel (any bound on the length works,
the callers pass the length itself). -/
def chunks64 : Nat → List Nat → List (List Nat)
  | 0, _ => []
  | _, [] => []
  | fuel + 1, l => l.take 64 :: chunks64 fuel (l.drop 64)

/-- The 160-bit SHA-1 digest of a byte string, as a natural number. -/
def sha1 (msg : List Nat) : Nat :=
  let padded := sha1pad msg
  match (chunks64 padded.length padded).foldl sha1chunk
      (1732584193, 4023233417, 2562383102, 271733878, 3285377520) with
  | (h0, h1, h2, h3, h4) =>
    h0 * 2 ^ 128 + h1 * 2 ^ 96 + h2 * 2 ^ 64 + h3 * 2 ^ 32 + h4

def hexChar (m : Nat) : Nat := if m < 10 then 48 + m else 87 + m

/-- `hashlib.sha1(msg).hexdigest()`: forty lowercase-hex digit bytes. -/
def sha1hex (msg : List Nat) : List Nat :=
  (List.range 40).map (fun i => hexChar (sha1 msg / 16 ^ (39 - i) % 16))

/-! ## base64.urlsafe_b64encode / urlsafe_b64decode — external stdlib collaborator

The URL-safe alphabet `A-Z a-z 0-9 - _` with `=` (byte 61) padding; note byte 58 `':'` is
not in the alphabet. -/

def b64char (n : Nat) : Nat :=
  if n < 26 then 65 + n
  else if n < 52 then 97 + (n - 26)
  else if n < 62 then 48 + (n - 52)
  else if n = 62 then 45
  else 95

def b64value (c : Nat) : Option Nat :=
  if 65 ≤ c ∧ c ≤ 90 then some (c - 65)
  else if 97 ≤ c ∧ c ≤ 122 then some (c - 97 + 26)
  else if 48 ≤ c ∧ c ≤ 57 then some (c - 48 + 52)
  else if c = 45 then some 62
  else if c = 95 then some 63
  else none

def urlsafe_b64encode : List Nat → List Nat
  | [] => []
  | [a] => [b64char (a / 4), b64char (a % 4 * 16), 61, 61]
  | [a, b] => [b64char (a / 4), b64char (a % 4 * 16 + b / 16), b64char (b % 16 * 4), 61]
  | a :: b :: c :: rest =>
    b64char (a / 4) :: b64char (a % 4 * 16 + b / 16) :: b64char (b % 16 * 4 + c / 64) ::
      b64char (c % 64) :: urlsafe_b64encode rest

/-- Decode the final quartet, which may carry one or two `=` padding bytes. -/
def b64lastQuartet (p q r s : Nat) : Option (List Nat) :=
  if r = 61 then
    match b64value p, b64value q with
    | some a, some b => if s = 61 then some [a * 4 + b / 16] else none
    | _, _ => none
  else if s = 61 then
    match b64value p, b64value q, b64value r with
    | some a, some b, some c => some [a * 4 + b / 16, b % 16 * 16 + c / 4]
    | _, _, _ => none
  else
    match b64value p, b64value q, b64value r, b64value s with
    | some a, some b, some c, some d =>
      some [a * 4 + b / 16, b % 16 * 16 + c / 4, c % 4 * 64 + d]
    | _, _, _, _ => none

def urlsafe_b64decode : List Nat → Option (List Nat)
  | [] => some []
  | [p, q, r, s] => b64lastQuartet p q r s
  | p :: q :: r :: s :: rest =>
    match b64value p, b64value q, b64value r, b64value s, urlsafe_b64decode rest with
    | some a, some b, some c, some d, some tl =>
      some ((a * 4 + b / 16) :: (b % 16 * 16 + c / 4) :: (c % 4 * 64 + d) :: tl)
    | _, _, _, _, _ => none
  | _ => none

/-! ## The identity record and the pickle / zlib collaborators

Modelled from the spec: the `OpenID` value type lives in `django_openid/utils.py`, which is
not among the given source files.  Per spec §3 an IdentityRecord is
`{ identity_url, sreg_fields : mapping(string→string), issued_at : timestamp }`, compared by
`identity_url` (the attribute the source reads as `o.openid`). -/

structure OpenID where
  openid : List Nat
  sreg : List (List Nat × List Nat)
  issued_at : Nat
deriving DecidableEq

/-- Unary length-code for one natural number: `n` one-bytes then a zero-byte.  Building
block of the pickle stand-in; injective and prefix-decodable, every byte is 0 or 1. -/
def encNat (n : Nat) : List Nat := List.replicate n 1 ++ [0]

def decNat : List Nat → Option (Nat × List Nat)
  | [] => none
  | 0 :: rest => some (0, rest)
  | 1 :: rest =>
    match decNat rest with
    | some (n, r) => some (n + 1, r)
    | none => none
  | _ => none

def encBytes (s : List Nat) : List Nat := encNat s.length ++ (s.map encNat).flatten

def decNats : Nat → List Nat → Option (List Nat × List Nat)
  | 0, bs => some ([], bs)
  | n + 1, bs =>
    match decNat bs with
    | some (x, bs1) =>
      match decNats n bs1 with
      | some (xs, bs2) => some (x :: xs, bs2)
      | none => none
    | none => none

def decBytes (bs : List Nat) : Option (List Nat × List Nat) :=
  match decNat bs with
  | some (n, bs1) =>
    match decNats n bs1 with
    | some (s, bs2) => some (s, bs2)
    | none => none
  | none => none

def encPair (p : List Nat × List Nat) : List Nat := encBytes p.1 ++ encBytes p.2

def decPair (bs : List Nat) : Option ((List Nat × List Nat) × List Nat) :=
  match decBytes bs with
  | some (a, bs1) =>
    match decBytes bs1 with
    | some (b, bs2) => some ((a, b), bs2)
    | none => none
  | none => none

def decPairs : Nat → List Nat → Option (List (List Nat × List Nat) × List Nat)
  | 0, bs => some ([], bs)
  | n + 1, bs =>
    match decPair bs with
    | some (p, bs1) =>
      match decPairs n bs1 with
      | some (ps, bs2) => some (p :: ps, bs2)
      | none => none
    | none => none

/-- Modelled stand-in for the external `pickle.dumps` collaborator: an injective,
prefix-decodable serialization of the identity record (the concrete pickle wire format is
irrelevant to every claim; losslessness is the only property the endpoint relies on). -/
def pickle_dumps (r : OpenID) : List Nat :=
  encBytes r.openid ++ encNat r.issued_at ++ encNat r.sreg.length ++ (r.sreg.map encPair).flatten

/-- Modelled stand-in for the external `pickle.loads` collaborator; `none` plays the role
of the exception Python raises on garbage input. -/
def pickle_loads (bs : List Nat) : Option OpenID :=
  match decBytes bs with
  | some (url, bs1) =>
    match decNat bs1 with
    | some (iss, bs2) =>
      match decNat bs2 with
      | some (n, bs3) =>
        match decPairs n bs3 with
        | some (ps, _) => some ⟨url, ps, iss⟩
        | none => none
      | none => none
    | none => none
  | none => none

/-- Modelled stand-in for the external `zlib.compress` collaborator: lossless inverse pair
with `zlib_decompress` is the only property the endpoint relies on, so compression is the
identity transform. -/
def zlib_compress (bs : List Nat) : List Nat := bs

/-- Modelled stand-in for the external `zlib.decompress` collaborator; `none` plays the
role of `zlib.error` on garbage input (never reached in these claims). -/
def zlib_decompress (bs : List Nat) : Option (List Nat) := some bs

/-! ## consumer.py CookieEndpoint: the signed-object codec -/

/-- The `ValueError` family `decode_object` raises, split by message, plus the
internal-consistency failures of the post-signature pipeline (spec §4.2 `CorruptPayload`). -/
inductive DecodeError
  | malformed
  | badSig
  | corrupt
deriving DecidableEq

/-- `CookieEndpoint.encode_object`: URL-safe, sha1-signed base64 compressed pickle.  The
secret is `get_secret()` (the endpoint's key or `settings.SECRET_KEY`), passed explicitly. -/
def encode_object (secret : List Nat) (obj : OpenID) : List Nat :=
  let pickled := pickle_dumps obj
  let compressed := zlib_compress pickled
  let base64d := urlsafe_b64encode compressed
  base64d ++ 58 :: sha1hex (base64d ++ secret)

/-- `CookieEndpoint.decode_object`: reverse of `encode_object`, `ValueError` if the colon
count is wrong or the signature fails. -/
def decode_object (secret : List Nat) (s : List Nat) : Except DecodeError OpenID :=
  if pycount 58 s ≠ 1 then .error .malformed
  else
    match pysplit 58 s with
    | [base64d, sig1] =>
      let sig2 := sha1hex (base64d ++ secret)
      if sig1 ≠ sig2 then .error .badSig
      else
        match urlsafe_b64decode base64d with
        | none => .error .corrupt
        | some compressed =>
          match zlib_decompress compressed with
          | none => .error .corrupt
          | some pickled =>
            match pickle_loads pickled with
            | none => .error .corrupt
            | some obj => .ok obj
    | _ => .error .malformed

/-! ## consumer.py CookieEndpoint as middleware -/

/-- The request attributes `process_request` sets, plus the endpoint's
`_cookie_needs_deleting` flag. -/
structure MiddlewareState where
  cookie_needs_deleting : Bool
  openid : Option OpenID
  openids : List OpenID
deriving DecidableEq

/-- The one observable `process_response` / `delete_cookie` touch on the outgoing
response. -/
structure HttpResp where
  openid_cookie_deleted : Bool
deriving DecidableEq

/-- Which decode failures Python raises as `ValueError`: the two explicit
`raise ValueError` sites of `decode_object` (colon count, signature mismatch).  The
post-signature pipeline's failures are different exception classes in Python 2 —
`TypeError` from `base64.urlsafe_b64decode` on bad padding, `zlib.error`, pickle's
unpickling errors — so they are not `ValueError`. -/
def DecodeError.isValueError : DecodeError → Bool
  | .malformed => true
  | .badSig => true
  | .corrupt => false

namespace CookieEndpoint

def delete_cookie (resp : HttpResp) : HttpResp := { resp with openid_cookie_deleted := true }

/-- `CookieEndpoint.process_request`.  `cookie_value` is
`request.COOKIES.get(cookie_key, None)`; Python's `if cookie_value:` is false both for
`None` and for the empty string.  The source's `except ValueError` catches only the
malformed-token and signature errors; a post-signature failure (`DecodeError.corrupt`,
i.e. `TypeError`/`zlib.error`/pickle exceptions) propagates out of the middleware,
modelled by `none` — spec §7's fatal-by-design corrupt payload. -/
def process_request (secret : List Nat) (cookie_value : Option (List Nat)) :
    Option MiddlewareState :=
  match cookie_value with
  | none => some ⟨false, none, []⟩
  | some v =>
    if v = [] then some ⟨false, none, []⟩
    else
      match decode_object secret v with
      | .ok o => some ⟨false, some o, [o]⟩
      | .error e => if e.isValueError then some ⟨true, none, []⟩ else none

/-- `CookieEndpoint.process_response`: deletes the cookie iff the request phase flagged it. -/
def process_response (st : MiddlewareState) (resp : HttpResp) : HttpResp :=
  if st.cookie_needs_deleting then delete_cookie resp else resp

end CookieEndpoint

/-! ## consumer.py SessionEndpoint -/

/-- The verified response handed to `on_success` by `do_complete` (status SUCCESS); carries
what `OpenID.from_openid_response` reads off it. -/
structure OpenIDResponse where
  identity_url : List Nat
  sreg : List (List Nat × List Nat)
  issued_at : Nat
deriving DecidableEq

/-- Modelled from the spec: `OpenID.from_openid_response` lives in
`django_openid/utils.py`, absent from the given sources; per spec §3 the record is created
from a successfully verified provider response, keyed by its `identity_url`. -/
def OpenID.from_openid_response (r : OpenIDResponse) : OpenID :=
  ⟨r.identity_url, r.sreg, r.issued_at⟩

namespace SessionEndpoint

/-- `SessionEndpoint.on_success`, restricted to its effect on the session's identity list
(`session = none` models a session without the `'openids'` key).  Removes duplicates of the
verified `identity_url`, then appends the fresh record; the session is marked modified and
`on_logged_in` is returned, neither of which touches the list. -/
def on_success (session : Option (List OpenID)) (identity_url : List Nat)
    (openid_response : OpenIDResponse) : List OpenID :=
  let current := match session with | none => [] | some l => l
  current.filter (fun o => o.openid ≠ identity_url) ++ [OpenID.from_openid_response openid_response]

/-- `SessionEndpoint.do_logout`'s successful outcome: the new identity list, the
`session.modified` mark, and `on_logged_out`'s redirect target. -/
structure LogoutOk where
  openids : List OpenID
  modified : Bool
  redirect_to : List Nat
deriving DecidableEq

/-- `SessionEndpoint.do_logout`.  `selector` is `request.GET.get(session_key, None)`;
Python's `if openid:` is false for `None` and the empty string.  In the truthy branch the
code reads `request.session[session_key]` — `none` models the uncaught `KeyError` when the
key is absent. -/
def do_logout (redirect_after_logout : List Nat) (selector : Option (List Nat))
    (session : Option (List OpenID)) : Option LogoutOk :=
  match selector with
  | some sel =>
    if sel ≠ [] then
      match session with
      | none => none
      | some l => some ⟨l.filter (fun o => o.openid ≠ sel), true, redirect_after_logout⟩
    else some ⟨[], true, redirect_after_logout⟩
  | none => some ⟨[], true, redirect_after_logout⟩

/-- `SessionEndpoint.process_request`: sets `request.openid` to
`request.session['openids'][0]` and `request.openids` to the whole list when the key is
present.  Python's `[0]` raises `IndexError` on an empty list, modelled by `none`. -/
def process_request (session : Option (List OpenID)) : Option (Option OpenID × List OpenID) :=
  match session with
  | none => some (none, [])
  | some [] => none
  | some (o :: rest) => some (some o, o :: rest)

end SessionEndpoint

/-! ## consumer.py Endpoint.do_complete -/

/-- The four canonical statuses of `openid.consumer.consumer` (external collaborator). -/
inductive Status
  | success
  | cancel
  | failure
  | setup_needed
deriving DecidableEq

/-- What `consumer.complete(...)` returns (external collaborator's response object). -/
structure LibResponse where
  status : Status
  identity_url : List Nat
  message : List Nat
deriving DecidableEq

/-- Which handler `do_complete` dispatches to, with the arguments it passes. -/
inductive CompleteOutcome
  | onSuccessR (identity_url : List Nat) (resp : LibResponse)
  | onCancelR (resp : LibResponse)
  | onFailureR (resp : LibResponse)
  | onSetupNeededR (resp : LibResponse)
deriving DecidableEq

/-- The inbound completion request: `request.GET` and `request.build_absolute_uri()`. -/
structure CompleteRequest where
  get_params : List (List Nat × List Nat)
  absolute_uri : List Nat

namespace Endpoint

/-- `Endpoint.do_complete`, parametric in the collaborator's `complete`.  The return URL it
verifies against is `request.build_absolute_uri().split('?')[0]`. -/
def do_complete (complete : List (List Nat × List Nat) → List Nat → LibResponse)
    (request : CompleteRequest) : CompleteOutcome :=
  let openid_response := complete request.get_params ((pysplit 63 request.absolute_uri).headD [])
  match openid_response.status with
  | .success => .onSuccessR openid_response.identity_url openid_response
  | .cancel => .onCancelR openid_response
  | .failure => .onFailureR openid_response
  | .setup_needed => .onSetupNeededR openid_response

end Endpoint

/-! ## auth.py AuthConsumer -/

namespace AuthConsumer

/-- What `on_logged_in` sees of `request.user`: `is_authenticated()` and `id`. -/
structure ReqUser where
  is_authenticated : Bool
  id : Nat

/-- The user-facing responses the reconciler can produce. -/
inductive AuthView
  | alreadyLoggedInRedirect
  | associateScreen
  | pickAccountScreen
  | registrationScreen
  | loginCompleteRedirect
deriving DecidableEq

/-- The observable outcome of one `on_logged_in` call: the value the view returns (`none`
models Python's implicit `return None`), whether `django.contrib.auth.login` was called and
for which account, and whether the ModelBackend provenance shim was applied. -/
structure AuthOutcome where
  response : Option AuthView
  django_login_called_with : Option Nat
  backend_annotated : Bool
deriving DecidableEq

/-- `AuthConsumer.log_in_user`: annotates `user.backend` with the ModelBackend shim, calls
`login(request, user)`, and returns `on_login_complete` (a redirect). -/
def log_in_user (user : Nat) : AuthOutcome :=
  ⟨some .loginCompleteRedirect, some user, true⟩

/-- `AuthConsumer.on_logged_in`, over the already-looked-up matches (`matches` is reserved
in Lean, so the binder is `matched`): the account ids
`lookup_openid` returned; the account store is an external collaborator).  In the
single-match branch the source calls `self.log_in_user(...)` without `return`, so the
login side effects happen but the view falls off the end: the response is `None`. -/
def on_logged_in (user : ReqUser) (matched : List Nat) : AuthOutcome :=
  if user.is_authenticated then
    if user.id ∈ matched then ⟨some .alreadyLoggedInRedirect, none, false⟩
    else ⟨some .associateScreen, none, false⟩
  else if matched ≠ [] then
    if matched.length = 1 then
      { log_in_user (matched.headD 0) with response := none }
    else ⟨some .pickAccountScreen, none, false⟩
  else ⟨some .registrationScreen, none, false⟩

end AuthConsumer

/-- Decidable equality of decode results, so concrete decodings evaluate under `decide`. -/
instance : DecidableEq (Except DecodeError OpenID) := fun a b =>
  match a, b with
  | .ok x, .ok y =>
    if h : x = y then .isTrue (by rw [h]) else .isFalse (fun he => h (Except.ok.inj he))
  | .error x, .error y =>
    if h : x = y then .isTrue (by rw [h]) else .isFalse (fun he => h (Except.error.inj he))
  | .ok _, .error _ => .isFalse (fun he => Except.noConfusion he)
  | .error _, .ok _ => .isFalse (fun he => Except.noConfusion he)

/-! ## Concrete instances used by the tamper-detection counterexample -/

def cexSecret : List Nat := [115]

def cexRecord : OpenID := ⟨[], [], 0⟩

/-- A well-formed (single-colon) token: the valid token for `cexRecord` with bit 0 of its
final signature byte flipped. -/
def cexToken : List Nat := flipAt 44 0 (encode_object cexSecret cexRecord)

/-! # Lemmas

## Byte-string primitives -/

theorem pycount_append (c : Nat) (a b : List Nat) :
    pycount c (a ++ b) = pycount c a + pycount c b := by
  induction a with
  | nil => simp [pycount]
  | cons x xs ih => simp [pycount, ih]; omega

theorem pycount_eq_zero (c : Nat) (s : List Nat) (h : ∀ x ∈ s, x ≠ c) :
    pycount c s = 0 := by
  induction s with
  | nil => rfl
  | cons x xs ih =>
    have hx : x ≠ c := h x (by simp)
    simp [pycount, hx]
    exact ih (fun y hy => h y (by simp [hy]))

theorem pycount_cons (c x : Nat) (xs : List Nat) :
    pycount c (x :: xs) = (if x = c then 1 else 0) + pycount c xs := rfl

theorem pysplit_ne_nil (c : Nat) (s : List Nat) : pysplit c s ≠ [] := by
  induction s with
  | nil => simp [pysplit]
  | cons x xs ih =>
    by_cases hx : x = c
    · simp [pysplit, hx]
    · simp only [pysplit, if_neg hx]
      cases hp : pysplit c xs with
      | nil => simp
      | cons h t => simp

theorem pysplit_sep_free (c : Nat) (s : List Nat) (h : ∀ x ∈ s, x ≠ c) :
    pysplit c s = [s] := by
  induction s with
  | nil => rfl
  | cons x xs ih =>
    have hx : x ≠ c := h x (by simp)
    have ih' := ih (fun y hy => h y (by simp [hy]))
    simp only [pysplit, if_neg hx, ih']

theorem pysplit_append_sep (c : Nat) (p t : List Nat) (hp : ∀ x ∈ p, x ≠ c) :
    pysplit c (p ++ c :: t) = p :: pysplit c t := by
  induction p with
  | nil => simp [pysplit]
  | cons x xs ih =>
    have hx : x ≠ c := hp x (by simp)
    have ih' := ih (fun y hy => hp y (by simp [hy]))
    simp only [List.cons_append, pysplit, if_neg hx, List.append_eq, ih']

theorem pysplit_two (c : Nat) (p t : List Nat) (hp : ∀ x ∈ p, x ≠ c)
    (ht : ∀ x ∈ t, x ≠ c) : pysplit c (p ++ c :: t) = [p, t] := by
  rw [pysplit_append_sep c p t hp, pysplit_sep_free c t ht]

theorem pysplit_length (c : Nat) (s : List Nat) :
    (pysplit c s).length = pycount c s + 1 := by
  induction s with
  | nil => rfl
  | cons x xs ih =>
    by_cases hx : x = c
    · simp [pysplit, pycount, hx, ih]; omega
    · simp only [pysplit, if_neg hx, pycount_cons, if_neg hx]
      cases hp : pysplit c xs with
      | nil => exact absurd hp (pysplit_ne_nil c xs)
      | cons h t => rw [hp] at ih; simpa using ih

theorem pysplit_headD (c : Nat) (s : List Nat) :
    c ∉ (pysplit c s).headD [] ∧
      ∃ rest, s = (pysplit c s).headD [] ++ rest ∧ (rest = [] ∨ ∃ t, rest = c :: t) := by
  induction s with
  | nil => exact ⟨by simp [pysplit], [], by simp [pysplit]⟩
  | cons x xs ih =>
    by_cases hx : x = c
    · refine ⟨by simp [pysplit, hx], x :: xs, by simp [pysplit, hx], .inr ⟨xs, by rw [hx]⟩⟩
    · obtain ⟨ihm, rest, ihr, ihc⟩ := ih
      cases hp : pysplit c xs with
      | nil => exact absurd hp (pysplit_ne_nil c xs)
      | cons h t =>
        rw [hp] at ihm ihr
        refine ⟨?_, rest, ?_, ihc⟩
        · simp only [pysplit, if_neg hx, hp, List.headD_cons]
          simp only [List.headD_cons] at ihm
          intro hmem
          rcases List.mem_cons.mp hmem with h1 | h2
          · exact hx h1.symm
          · exact ihm h2
        · simp only [pysplit, if_neg hx, hp, List.headD_cons]
          simp only [List.headD_cons] at ihr
          simp [ihr]

/-! ## The token alphabet avoids the colon -/

theorem b64char_ne_colon (n : Nat) : b64char n ≠ 58 := by
  unfold b64char
  split
  · omega
  · split
    · omega
    · split
      · omega
      · split <;> omega

theorem b64char_ne_pad (n : Nat) : b64char n ≠ 61 := by
  unfold b64char
  split
  · omega
  · split
    · omega
    · split
      · omega
      · split <;> omega

theorem b64encode_ne_colon : ∀ bs : List Nat, ∀ x ∈ urlsafe_b64encode bs, x ≠ 58
  | [] => by simp [urlsafe_b64encode]
  | [a] => by
    intro x hx
    simp only [urlsafe_b64encode, List.mem_cons, List.not_mem_nil, or_false] at hx
    rcases hx with rfl | rfl | rfl | rfl
    · exact b64char_ne_colon _
    · exact b64char_ne_colon _
    · omega
    · omega
  | [a, b] => by
    intro x hx
    simp only [urlsafe_b64encode, List.mem_cons, List.not_mem_nil, or_false] at hx
    rcases hx with rfl | rfl | rfl | rfl
    · exact b64char_ne_colon _
    · exact b64char_ne_colon _
    · exact b64char_ne_colon _
    · omega
  | a :: b :: c :: rest => by
    intro x hx
    simp only [urlsafe_b64encode, List.mem_cons] at hx
    rcases hx with rfl | rfl | rfl | rfl | h
    · exact b64char_ne_colon _
    · exact b64char_ne_colon _
    · exact b64char_ne_colon _
    · exact b64char_ne_colon _
    · exact b64encode_ne_colon rest x h

theorem hexChar_ne_colon (m : Nat) : hexChar m ≠ 58 := by
  unfold hexChar; split <;> omega

theorem sha1hex_ne_colon (msg : List Nat) : ∀ x ∈ sha1hex msg, x ≠ 58 := by
  intro x hx
  simp only [sha1hex, List.mem_map] at hx
  obtain ⟨i, _, rfl⟩ := hx
  exact hexChar_ne_colon _

theorem sha1hex_length (msg : List Nat) : (sha1hex msg).length = 40 := by
  simp [sha1hex]

/-! ## base64 round trip -/

theorem b64value_b64char : ∀ n < 64, b64value (b64char n) = some n := by decide

theorem b64encode_cons_ne_nil (x : Nat) (xs : List Nat) : urlsafe_b64encode (x :: xs) ≠ [] := by
  match xs with
  | [] => simp [urlsafe_b64encode]
  | [y] => simp [urlsafe_b64encode]
  | y :: z :: t => simp [urlsafe_b64encode]

theorem b64_roundtrip :
    ∀ bs : List Nat, (∀ x ∈ bs, x < 256) →
      urlsafe_b64decode (urlsafe_b64encode bs) = some bs
  | [], _ => rfl
  | [a], h => by
    have ha : a < 256 := h a (by simp)
    have h1 : a / 4 < 64 := by omega
    have h2 : a % 4 * 16 < 64 := by omega
    simp only [urlsafe_b64encode, urlsafe_b64decode, b64lastQuartet, if_pos rfl,
      b64value_b64char _ h1, b64value_b64char _ h2]
    simp
    all_goals omega
  | [a, b], h => by
    have ha : a < 256 := h a (by simp)
    have hb : b < 256 := h b (by simp)
    have h1 : a / 4 < 64 := by omega
    have h2 : a % 4 * 16 + b / 16 < 64 := by omega
    have h3 : b % 16 * 4 < 64 := by omega
    simp only [urlsafe_b64decode, urlsafe_b64encode, b64lastQuartet,
      if_neg (b64char_ne_pad (b % 16 * 4)), if_pos rfl,
      b64value_b64char _ h1, b64value_b64char _ h2, b64value_b64char _ h3]
    simp
    all_goals omega
  | a :: b :: c :: rest, h => by
    have ha : a < 256 := h a (by simp)
    have hb : b < 256 := h b (by simp)
    have hc : c < 256 := h c (by simp)
    have h1 : a / 4 < 64 := by omega
    have h2 : a % 4 * 16 + b / 16 < 64 := by omega
    have h3 : b % 16 * 4 + c / 64 < 64 := by omega
    have h4 : c % 64 < 64 := by omega
    have e1 : a / 4 * 4 + (a % 4 * 16 + b / 16) / 16 = a := by omega
    have e2 : (a % 4 * 16 + b / 16) % 16 * 16 + (b % 16 * 4 + c / 64) / 4 = b := by omega
    have e3 : (b % 16 * 4 + c / 64) % 4 * 64 + c % 64 = c := by omega
    match hr : rest with
    | [] =>
      simp only [urlsafe_b64encode, urlsafe_b64decode, b64lastQuartet,
        if_neg (b64char_ne_pad (b % 16 * 4 + c / 64)), if_neg (b64char_ne_pad (c % 64)),
        b64value_b64char _ h1, b64value_b64char _ h2, b64value_b64char _ h3,
        b64value_b64char _ h4]
      simp
      all_goals omega
    | r1 :: rest2 =>
      have ih := b64_roundtrip (r1 :: rest2)
        (fun y hy => h y (by simp only [List.mem_cons] at hy ⊢; tauto))
      obtain ⟨hd, tl, heq⟩ := List.exists_cons_of_ne_nil (b64encode_cons_ne_nil r1 rest2)
      simp only [urlsafe_b64encode, heq, urlsafe_b64decode,
        b64value_b64char _ h1, b64value_b64char _ h2, b64value_b64char _ h3,
        b64value_b64char _ h4]
      rw [← heq, ih]
      simp
      all_goals omega

/-! ## pickle stand-in round trip -/

theorem decNat_encNat : ∀ (n : Nat) (rest : List Nat), decNat (encNat n ++ rest) = some (n, rest)
  | 0, rest => by simp [encNat, decNat]
  | n + 1, rest => by
    have h : encNat (n + 1) ++ rest = 1 :: (encNat n ++ rest) := by
      simp [encNat, List.replicate_succ]
    rw [h]
    simp only [decNat, decNat_encNat n rest]

theorem decNats_flatten : ∀ (s rest : List Nat),
    decNats s.length ((s.map encNat).flatten ++ rest) = some (s, rest)
  | [], rest => by simp [decNats]
  | x :: xs, rest => by
    simp only [List.map_cons, List.flatten_cons, List.length_cons, decNats, List.append_assoc,
      decNat_encNat, decNats_flatten xs rest]

theorem decBytes_encBytes (s rest : List Nat) : decBytes (encBytes s ++ rest) = some (s, rest) := by
  simp only [encBytes, decBytes, List.append_assoc, decNat_encNat, decNats_flatten]

theorem decPair_encPair (p : List Nat × List Nat) (rest : List Nat) :
    decPair (encPair p ++ rest) = some (p, rest) := by
  simp only [encPair, decPair, List.append_assoc, decBytes_encBytes]

theorem decPairs_flatten : ∀ (ps : List (List Nat × List Nat)) (rest : List Nat),
    decPairs ps.length ((ps.map encPair).flatten ++ rest) = some (ps, rest)
  | [], rest => by simp [decPairs]
  | p :: ps, rest => by
    simp only [List.map_cons, List.flatten_cons, List.length_cons, decPairs, List.append_assoc,
      decPair_encPair, decPairs_flatten ps rest]

theorem pickle_loads_dumps (r : OpenID) : pickle_loads (pickle_dumps r) = some r := by
  have h : pickle_dumps r =
      encBytes r.openid ++ (encNat r.issued_at ++ (encNat r.sreg.length ++
        ((r.sreg.map encPair).flatten ++ []))) := by
    simp [pickle_dumps]
  rw [h]
  simp only [pickle_loads, decBytes_encBytes, decNat_encNat, decPairs_flatten]

theorem encNat_lt (n : Nat) : ∀ x ∈ encNat n, x < 256 := by
  intro x hx
  simp only [encNat, List.mem_append, List.mem_replicate, List.mem_singleton] at hx
  rcases hx with ⟨_, rfl⟩ | rfl <;> omega

theorem encBytes_lt (s : List Nat) : ∀ x ∈ encBytes s, x < 256 := by
  intro x hx
  simp only [encBytes, List.mem_append, List.mem_flatten, List.mem_map] at hx
  rcases hx with h1 | ⟨l, ⟨y, _, rfl⟩, hxl⟩
  · exact encNat_lt _ x h1
  · exact encNat_lt _ x hxl

theorem encPair_lt (p : List Nat × List Nat) : ∀ x ∈ encPair p, x < 256 := by
  intro x hx
  simp only [encPair, List.mem_append] at hx
  rcases hx with h1 | h2
  · exact encBytes_lt _ x h1
  · exact encBytes_lt _ x h2

theorem pickle_dumps_lt (r : OpenID) : ∀ x ∈ pickle_dumps r, x < 256 := by
  intro x hx
  simp only [pickle_dumps, List.mem_append, List.mem_flatten, List.mem_map] at hx
  rcases hx with ((h1 | h2) | h3) | ⟨l, ⟨q, _, rfl⟩, hxl⟩
  · exact encBytes_lt _ x h1
  · exact encNat_lt _ x h2
  · exact encNat_lt _ x h3
  · exact encPair_lt _ x hxl

/-! ## The signed-object codec on valid tokens -/

/-- Decoding any token `encode_object` produced recovers the record: the core of the
round-trip property, shared by the claim theorems below. -/
theorem decode_encode_ok (secret : List Nat) (r : OpenID) :
    decode_object secret (encode_object secret r) = .ok r := by
  have hpz : ∀ x ∈ urlsafe_b64encode (zlib_compress (pickle_dumps r)), x ≠ 58 :=
    b64encode_ne_colon _
  have hhz : ∀ x ∈ sha1hex (urlsafe_b64encode (zlib_compress (pickle_dumps r)) ++ secret),
      x ≠ 58 := sha1hex_ne_colon _
  have henc : encode_object secret r =
      urlsafe_b64encode (zlib_compress (pickle_dumps r)) ++ 58 ::
        sha1hex (urlsafe_b64encode (zlib_compress (pickle_dumps r)) ++ secret) := rfl
  have hcount : pycount 58 (encode_object secret r) = 1 := by
    rw [henc, pycount_append, pycount_cons, pycount_eq_zero _ _ hpz, pycount_eq_zero _ _ hhz]
    simp
  have hsplit : pysplit 58 (encode_object secret r) =
      [urlsafe_b64encode (zlib_compress (pickle_dumps r)),
       sha1hex (urlsafe_b64encode (zlib_compress (pickle_dumps r)) ++ secret)] := by
    rw [henc]; exact pysplit_two 58 _ _ hpz hhz
  have hb64 : urlsafe_b64decode (urlsafe_b64encode (pickle_dumps r)) =
      some (pickle_dumps r) :=
    b64_roundtrip _ (pickle_dumps_lt r)
  rw [decode_object, if_neg (by rw [hcount]; exact fun h => h rfl), hsplit]
  simp [ite_not, hb64, zlib_decompress, zlib_compress, pickle_loads_dumps]

/-! ## Tamper detection machinery -/

theorem xor_bit_ne (b k : Nat) : b ^^^ (1 <<< k) ≠ b := by
  intro h
  have h2 : (1 <<< k) = 0 := by
    have h3 := congrArg (fun z => b ^^^ z) h
    simpa [← Nat.xor_assoc, Nat.xor_self, Nat.zero_xor] using h3
  rw [Nat.one_shiftLeft] at h2
  exact pow_ne_zero k (by norm_num) h2

theorem getD_set_self (l : List Nat) (i v : Nat) (h : i < l.length) :
    (l.set i v).getD i 0 = v := by
  rw [List.getD_eq_getElem _ _ (by simpa using h)]
  exact List.getElem_set_self _

theorem set_ne_self (l : List Nat) (i v : Nat) (h : i < l.length) (hv : v ≠ l.getD i 0) :
    l.set i v ≠ l := by
  intro he
  exact hv (by rw [← getD_set_self l i v h, he])

theorem set_free (l : List Nat) (i v c : Nat) (hfree : ∀ x ∈ l, x ≠ c) (hv : v ≠ c) :
    ∀ x ∈ l.set i v, x ≠ c := by
  intro x hx
  rcases List.mem_or_eq_of_mem_set hx with hmem | rfl
  · exact hfree x hmem
  · exact hv

theorem pycount_set_sep : ∀ (l : List Nat) (i c : Nat), i < l.length →
    (∀ x ∈ l, x ≠ c) → pycount c (l.set i c) = 1
  | [], i, c, hi, _ => by simp at hi
  | x :: xs, 0, c, _, hfree => by
    simp only [List.set_cons_zero, pycount_cons]
    rw [pycount_eq_zero c xs (fun y hy => hfree y (by simp [hy]))]
    simp
  | x :: xs, i + 1, c, hi, hfree => by
    simp only [List.set_cons_succ, pycount_cons, if_neg (hfree x (by simp))]
    rw [pycount_set_sep xs i c (by simpa using hi) (fun y hy => hfree y (by simp [hy]))]

theorem decode_object_malformed (secret s : List Nat) (h : pycount 58 s ≠ 1) :
    decode_object secret s = .error .malformed := by
  rw [decode_object, if_pos h]

theorem decode_object_badSig (secret p h2 : List Nat) (hp : ∀ x ∈ p, x ≠ 58)
    (hh : ∀ x ∈ h2, x ≠ 58) (hne : h2 ≠ sha1hex (p ++ secret)) :
    decode_object secret (p ++ 58 :: h2) = .error .badSig := by
  have hcount : pycount 58 (p ++ 58 :: h2) = 1 := by
    rw [pycount_append, pycount_cons, pycount_eq_zero _ _ hp, pycount_eq_zero _ _ hh]
    simp
  rw [decode_object, if_neg (by rw [hcount]; exact fun h => h rfl), pysplit_two 58 _ _ hp hh]
  simp only [ite_not]
  rw [if_neg (fun hcontra => hne hcontra)]

/-- Single-bit tampering on a validly signed token: flipping any bit of any byte makes
`decode_object` raise; in the payload portion this needs the tampered payload to hash
differently (SHA-1 second-preimage resistance, assumed as `hcoll`), while in the separator
or the signature portion it is unconditional.  Core lemma behind the amended tamper claim. -/
theorem decode_flip_fails (secret : List Nat) (r : OpenID) (i k : Nat)
    (hi : i < (encode_object secret r).length)
    (hcoll : i < (urlsafe_b64encode (zlib_compress (pickle_dumps r))).length →
      sha1hex (flipAt i k (urlsafe_b64encode (zlib_compress (pickle_dumps r))) ++ secret) ≠
        sha1hex (urlsafe_b64encode (zlib_compress (pickle_dumps r)) ++ secret)) :
    ∃ e, decode_object secret (flipAt i k (encode_object secret r)) = .error e := by
  have hpz : ∀ x ∈ urlsafe_b64encode (zlib_compress (pickle_dumps r)), x ≠ 58 :=
    b64encode_ne_colon _
  have hhz : ∀ x ∈ sha1hex (urlsafe_b64encode (zlib_compress (pickle_dumps r)) ++ secret),
      x ≠ 58 := sha1hex_ne_colon _
  generalize hP : urlsafe_b64encode (zlib_compress (pickle_dumps r)) = P at hpz hhz hcoll
  generalize hH : sha1hex (P ++ secret) = H at hhz
  have henc : encode_object secret r = P ++ 58 :: H := by
    rw [encode_object, hP, hH]
  rw [henc] at hi ⊢
  have hHlen : H.length = 40 := by rw [← hH]; exact sha1hex_length _
  have hilen : i < P.length + 41 := by
    simpa [List.length_append, hHlen] using hi
  rcases Nat.lt_trichotomy i P.length with hlt | hieq | hgt
  · -- the flipped bit lies in the payload portion
    have hgetD : (P ++ 58 :: H).getD i 0 = P.getD i 0 := List.getD_append _ _ _ _ hlt
    have hset : flipAt i k (P ++ 58 :: H) = flipAt i k P ++ 58 :: H := by
      simp only [flipAt, hgetD, List.set_append, if_pos hlt]
    rw [hset]
    by_cases hvc : P.getD i 0 ^^^ (1 <<< k) = 58
    · -- the flip manufactured a second colon: malformed, no hash involved
      refine ⟨.malformed, decode_object_malformed _ _ ?_⟩
      rw [flipAt, hvc, pycount_append, pycount_cons,
        pycount_set_sep P i 58 hlt hpz, pycount_eq_zero _ _ hhz]
      simp
    · refine ⟨.badSig, decode_object_badSig secret _ H
        (set_free P i _ 58 hpz hvc) hhz ?_⟩
      rw [← hH]
      intro hcontra
      exact hcoll hlt (by rw [hcontra])
  · -- the flipped bit destroys the separator itself
    have hgetD : (P ++ 58 :: H).getD i 0 = 58 := by
      rw [List.getD_append_right _ _ _ _ (le_of_eq hieq.symm), hieq, Nat.sub_self,
        List.getD_cons_zero]
    have hset : flipAt i k (P ++ 58 :: H) = P ++ (58 ^^^ (1 <<< k)) :: H := by
      rw [flipAt, hgetD, List.set_append, if_neg (by omega), hieq, Nat.sub_self,
        List.set_cons_zero]
    refine ⟨.malformed, ?_⟩
    rw [hset]
    refine decode_object_malformed _ _ ?_
    rw [pycount_append, pycount_cons, if_neg (xor_bit_ne 58 k),
      pycount_eq_zero _ _ hpz, pycount_eq_zero _ _ hhz]
    simp
  · -- the flipped bit lies in the signature portion
    obtain ⟨j, hj⟩ : ∃ j, i - P.length = j + 1 := ⟨i - P.length - 1, by omega⟩
    have hjlt : j < H.length := by omega
    have hgetD : (P ++ 58 :: H).getD i 0 = H.getD j 0 := by
      rw [List.getD_append_right _ _ _ _ (by omega), hj, List.getD_cons_succ]
    have hset : flipAt i k (P ++ 58 :: H) = P ++ 58 :: H.set j (H.getD j 0 ^^^ (1 <<< k)) := by
      rw [flipAt, hgetD, List.set_append, if_neg (by omega), hj, List.set_cons_succ]
    rw [hset]
    by_cases hvc : H.getD j 0 ^^^ (1 <<< k) = 58
    · refine ⟨.malformed, decode_object_malformed _ _ ?_⟩
      rw [hvc, pycount_append, pycount_cons, pycount_set_sep H j 58 hjlt hhz,
        pycount_eq_zero _ _ hpz]
      simp
    · refine ⟨.badSig, decode_object_badSig secret _ _
        hpz (set_free H j _ 58 hhz hvc) ?_⟩
      rw [hH]
      exact set_ne_self H j _ hjlt (xor_bit_ne _ k)

/-! # Claim theorems -/

/-- Claim C2: for every IdentityRecord value `r` and every secret `s`, decoding the token
produced by encoding `r` under `s` yields `r` back unchanged:
`decode_object (encode_object r) = r` when both use the same secret. -/
theorem c2_decode_encode_roundtrip (secret : List Nat) (r : OpenID) :
    decode_object secret (encode_object secret r) = .ok r :=
  decode_encode_ok secret r

/-- Claim C4: an input with colon count other than one fails with the malformed-token
`ValueError` for every secret (so no signature is computed or compared: the outcome does not
depend on the secret), and with exactly one colon the malformed error is never the result —
the signature check is what runs instead. -/
theorem c4_malformed_shape (secret s : List Nat) :
    (pycount 58 s ≠ 1 → decode_object secret s = .error .malformed) ∧
    (pycount 58 s = 1 → decode_object secret s ≠ .error .malformed) := by
  constructor
  · exact decode_object_malformed secret s
  · intro h1
    have hlen : (pysplit 58 s).length = 2 := by rw [pysplit_length, h1]
    obtain ⟨a, b, hab⟩ := List.length_eq_two.mp hlen
    rw [decode_object, if_neg (by rw [h1]; exact fun hh => hh rfl), hab]
    by_cases hsig : b = sha1hex (a ++ secret)
    · simp only [ite_not, if_pos hsig, zlib_decompress]
      cases hb64 : urlsafe_b64decode a with
      | none => simp
      | some compressed => cases hpl : pickle_loads compressed <;> simp [hpl]
    · simp only [ite_not, if_neg hsig]
      simp

set_option maxRecDepth 100000 in
/-- Claim C3 counterexample: `cexToken` is a well-formed token (exactly one colon) and
flipping bit 0 of its final byte — a byte of the signature portion, since the payload
portion is only 4 bytes long — makes `decode_object` return a value instead of failing. -/
theorem c3_counterexample :
    pycount 58 cexToken = 1 ∧
    cexToken.length = 45 ∧
    (urlsafe_b64encode (zlib_compress (pickle_dumps cexRecord))).length = 4 ∧
    decode_object cexSecret (flipAt 44 0 cexToken) = .ok cexRecord := by decide

/-- Claim C3 (amended): for tokens produced by `encode_object` (validly signed, not merely
one-colon), flipping any single bit `k < 8` of any byte makes `decode_object` fail with a
`ValueError`; for bytes of the payload portion this holds provided the SHA-1 of the tampered
payload differs from that of the original (`hcoll` — exactly SHA-1 second-preimage
resistance, which no proof about the code can discharge), while for the separator and every
byte of the signature portion it is unconditional. -/
theorem c3_tamper_detection (secret : List Nat) (r : OpenID) (i k : Nat)
    (_hk : k < 8)
    (hi : i < (encode_object secret r).length)
    (hcoll : i < (urlsafe_b64encode (zlib_compress (pickle_dumps r))).length →
      sha1hex (flipAt i k (urlsafe_b64encode (zlib_compress (pickle_dumps r))) ++ secret) ≠
        sha1hex (urlsafe_b64encode (zlib_compress (pickle_dumps r)) ++ secret)) :
    ∃ e, decode_object secret (flipAt i k (encode_object secret r)) = .error e :=
  decode_flip_fails secret r i k hi hcoll

set_option maxRecDepth 100000 in
/-- Witness for the amended C3 at a payload byte: flipping bit 0 of byte 0 of the concrete
token for the record `⟨[], [], 0⟩` under secret `[115]` is rejected. -/
theorem c3_tamper_detection_witness :
    ∃ e, decode_object [115] (flipAt 0 0 (encode_object [115] ⟨[], [], 0⟩)) = .error e :=
  c3_tamper_detection [115] ⟨[], [], 0⟩ 0 0 (by decide) (by decide) (by decide)

/-- Claim C5: a cookie-borne request whose non-empty cookie value fails decoding with one
of the `ValueError`s (signature mismatch or malformed token — the errors the source's
`except ValueError` catches) is treated as not logged in (`request.openid` is none,
`request.openids` empty), the deletion flag is set during request parsing, and response
finalization deletes the cookie; that `ValueError` is never surfaced to the user. -/
theorem c5_bad_cookie_silently_cleared (secret v : List Nat) (e : DecodeError)
    (hv : v ≠ []) (hd : decode_object secret v = .error e) (hve : e.isValueError = true) :
    CookieEndpoint.process_request secret (some v) = some ⟨true, none, []⟩ ∧
    ∀ (st : MiddlewareState) (resp : HttpResp),
      CookieEndpoint.process_request secret (some v) = some st →
        (CookieEndpoint.process_response st resp).openid_cookie_deleted = true := by
  have h1 : CookieEndpoint.process_request secret (some v) = some ⟨true, none, []⟩ := by
    rw [CookieEndpoint.process_request, if_neg hv, hd]
    simp [hve]
  refine ⟨h1, fun st resp hst => ?_⟩
  rw [h1] at hst
  cases hst
  rfl

/-- Witness for C5 at the concrete cookie `[0]` (no colon, a malformed-token `ValueError`)
under the empty secret. -/
theorem c5_bad_cookie_witness :
    CookieEndpoint.process_request [] (some [0]) = some ⟨true, none, []⟩ ∧
    ∀ (st : MiddlewareState) (resp : HttpResp),
      CookieEndpoint.process_request [] (some [0]) = some st →
        (CookieEndpoint.process_response st resp).openid_cookie_deleted = true :=
  c5_bad_cookie_silently_cleared [] [0] .malformed (by decide) (by decide) (by decide)

/-- Claim C9: an empty-string cookie value leaves the request not logged in without
scheduling deletion, and the deletion flag is set exactly when a non-empty cookie value
fails decoding with one of the `ValueError`s the source catches (a post-signature corrupt
payload instead raises an uncaught non-`ValueError`, so it never sets the flag). -/
theorem c9_empty_cookie_not_flagged (secret : List Nat) :
    CookieEndpoint.process_request secret (some []) = some ⟨false, none, []⟩ ∧
    ∀ cookie_value : Option (List Nat),
      ((∃ st, CookieEndpoint.process_request secret cookie_value = some st ∧
          st.cookie_needs_deleting = true) ↔
        ∃ v e, cookie_value = some v ∧ v ≠ [] ∧ decode_object secret v = .error e ∧
          e.isValueError = true) := by
  constructor
  · rw [CookieEndpoint.process_request, if_pos rfl]
  · intro cv
    cases cv with
    | none => simp [CookieEndpoint.process_request]
    | some v =>
      by_cases hv : v = []
      · subst hv
        simp [CookieEndpoint.process_request]
      · cases hd : decode_object secret v with
        | ok o => simp [CookieEndpoint.process_request, hv, hd]
        | error e =>
          cases hve : e.isValueError with
          | true =>
            simp [CookieEndpoint.process_request, hv, hd, hve]
          | false =>
            simp [CookieEndpoint.process_request, hv, hd, hve]

/-- Claim C6: after a successful session login for an identity URL already present, exactly
one record with that URL remains — the fresh one, appended last — and the
no-duplicate-URLs invariant of the session identity set is preserved. -/
theorem c6_session_dedup (session : Option (List OpenID)) (resp : OpenIDResponse)
    (_halready : ∃ o ∈ (session.getD []), o.openid = resp.identity_url) :
    (SessionEndpoint.on_success session resp.identity_url resp).filter
        (fun o => o.openid = resp.identity_url) = [OpenID.from_openid_response resp] ∧
    (SessionEndpoint.on_success session resp.identity_url resp).getLast? =
      some (OpenID.from_openid_response resp) ∧
    (List.Pairwise (fun a b => a.openid ≠ b.openid) (session.getD []) →
      List.Pairwise (fun a b => a.openid ≠ b.openid)
        (SessionEndpoint.on_success session resp.identity_url resp)) := by
  have hdef : SessionEndpoint.on_success session resp.identity_url resp =
      (session.getD []).filter (fun o => o.openid ≠ resp.identity_url) ++
        [OpenID.from_openid_response resp] := by
    cases session <;> rfl
  refine ⟨?_, ?_, ?_⟩
  · rw [hdef, List.filter_append, List.filter_filter]
    have h1 : List.filter
        (fun o => decide (o.openid = resp.identity_url) && decide (o.openid ≠ resp.identity_url))
        (session.getD []) = [] := by
      rw [List.filter_eq_nil_iff]
      intro a _
      simp only [Bool.and_eq_true, decide_eq_true_eq]
      rintro ⟨h2, h3⟩
      exact h3 h2
    rw [h1]
    simp [OpenID.from_openid_response]
  · rw [hdef]
    simp
  · intro hpw
    rw [hdef, List.pairwise_append]
    refine ⟨List.Pairwise.sublist (List.filter_sublist _) hpw, by simp, ?_⟩
    intro a ha b hb
    rw [List.mem_filter] at ha
    rw [List.mem_singleton] at hb
    subst hb
    have := ha.2
    simp only [ne_eq, decide_not, Bool.not_eq_eq_eq_not, Bool.not_true, decide_eq_false_iff_not] at this
    simpa [OpenID.from_openid_response] using this

/-- Witness for C6 at a one-record session holding the same identity URL `[5]` with
different sreg fields. -/
theorem c6_session_dedup_witness :
    (SessionEndpoint.on_success (some [⟨[5], [], 0⟩])
        (OpenIDResponse.mk [5] [([110], [118])] 1).identity_url ⟨[5], [([110], [118])], 1⟩).filter
        (fun o => o.openid = (OpenIDResponse.mk [5] [([110], [118])] 1).identity_url) =
      [OpenID.from_openid_response ⟨[5], [([110], [118])], 1⟩] ∧
    (SessionEndpoint.on_success (some [⟨[5], [], 0⟩])
        (OpenIDResponse.mk [5] [([110], [118])] 1).identity_url ⟨[5], [([110], [118])], 1⟩).getLast? =
      some (OpenID.from_openid_response ⟨[5], [([110], [118])], 1⟩) ∧
    (List.Pairwise (fun a b => a.openid ≠ b.openid)
        ((some [(⟨[5], [], 0⟩ : OpenID)]).getD []) →
      List.Pairwise (fun a b => a.openid ≠ b.openid)
        (SessionEndpoint.on_success (some [⟨[5], [], 0⟩])
          (OpenIDResponse.mk [5] [([110], [118])] 1).identity_url ⟨[5], [([110], [118])], 1⟩)) :=
  c6_session_dedup (some [⟨[5], [], 0⟩]) ⟨[5], [([110], [118])], 1⟩ (by decide)

/-- Claim C7: loading identities from the session yields the first record as primary when
one exists and no primary for an absent key; but a present-and-empty identity list — the
state `do_logout` leaves behind — makes `request.session['openids'][0]` raise an uncaught
`IndexError` (`none`) instead of yielding no primary identity. -/
theorem c7_process_request_empty_list_raises :
    SessionEndpoint.process_request (some []) = none ∧
    SessionEndpoint.process_request none = some (none, []) ∧
    ∀ (o : OpenID) (rest : List OpenID),
      SessionEndpoint.process_request (some (o :: rest)) = some (some o, o :: rest) :=
  ⟨rfl, rfl, fun _ _ => rfl⟩

/-- Claim C1: on a single unauthenticated match, `on_logged_in` performs the login side
effects — `django.contrib.auth.login` for the matched account with the ModelBackend
provenance shim applied — but discards `log_in_user`'s post-login redirect and falls off
the end, returning `None` rather than the `LogInAs` response that `log_in_user` itself
produces. -/
theorem c1_single_match_login_effects :
    AuthConsumer.on_logged_in ⟨false, 0⟩ [7] =
      { response := none, django_login_called_with := some 7, backend_annotated := true } ∧
    AuthConsumer.log_in_user 7 =
      { response := some .loginCompleteRedirect, django_login_called_with := some 7,
        backend_annotated := true } :=
  ⟨rfl, rfl⟩

/-- Claim C8: `do_complete` hands the collaborator's verification a return URL equal to the
inbound absolute URI truncated at its first `?` — colon-free of `?`, a prefix of the URI
whose remainder is empty or starts with `?` — so two collaborators agreeing on query-free
URLs make `do_complete` agree on every inbound request, whatever query string it carries. -/
theorem c8_complete_return_url_stripped
    (complete complete2 : List (List Nat × List Nat) → List Nat → LibResponse)
    (request : CompleteRequest)
    (hagree : ∀ ps u, 63 ∉ u → complete ps u = complete2 ps u) :
    Endpoint.do_complete complete request = Endpoint.do_complete complete2 request ∧
    63 ∉ (pysplit 63 request.absolute_uri).headD [] ∧
    ∃ rest, request.absolute_uri = (pysplit 63 request.absolute_uri).headD [] ++ rest ∧
      (rest = [] ∨ ∃ t, rest = 63 :: t) := by
  obtain ⟨hne, rest, hsp, hsh⟩ := pysplit_headD 63 request.absolute_uri
  refine ⟨?_, hne, rest, hsp, hsh⟩
  rw [Endpoint.do_complete, Endpoint.do_complete, hagree _ _ hne]

/-- Witness for C8 at the URI `h?q` (bytes `[104, 63, 113]`) and a constant collaborator. -/
theorem c8_complete_witness :
    Endpoint.do_complete (fun _ _ => ⟨.cancel, [], []⟩) ⟨[], [104, 63, 113]⟩ =
      Endpoint.do_complete (fun _ _ => ⟨.cancel, [], []⟩) ⟨[], [104, 63, 113]⟩ ∧
    63 ∉ (pysplit 63 (CompleteRequest.mk [] [104, 63, 113]).absolute_uri).headD [] ∧
    ∃ rest, (CompleteRequest.mk [] [104, 63, 113]).absolute_uri =
        (pysplit 63 (CompleteRequest.mk [] [104, 63, 113]).absolute_uri).headD [] ++ rest ∧
      (rest = [] ∨ ∃ t, rest = 63 :: t) :=
  c8_complete_return_url_stripped (fun _ _ => ⟨.cancel, [], []⟩) (fun _ _ => ⟨.cancel, [], []⟩)
    ⟨[], [104, 63, 113]⟩ (fun _ _ _ => rfl)

/-- Claim C10: `do_logout` with a truthy (non-empty) selector reads
`request.session[session_key]`, so an absent key raises an uncaught `KeyError` instead of
returning the logged-out redirect, while a present key filters that one identity out; with
no selector it always succeeds, setting the list empty and marking the session modified. -/
theorem c10_do_logout_selector (redirect_to sel : List Nat) (session : Option (List OpenID))
    (hsel : sel ≠ []) :
    SessionEndpoint.do_logout redirect_to (some sel) none = none ∧
    (∀ l, session = some l →
      SessionEndpoint.do_logout redirect_to (some sel) session =
        some ⟨l.filter (fun o => o.openid ≠ sel), true, redirect_to⟩) ∧
    ∀ s2 : Option (List OpenID),
      SessionEndpoint.do_logout redirect_to none s2 = some ⟨[], true, redirect_to⟩ := by
  refine ⟨?_, ?_, fun s2 => rfl⟩
  · rw [SessionEndpoint.do_logout, if_pos hsel]
  · rintro l rfl
    rw [SessionEndpoint.do_logout, if_pos hsel]

/-- Witness for C10 at the selector `[97]` and the one-record session `[⟨[97], [], 0⟩]`. -/
theorem c10_do_logout_witness :
    SessionEndpoint.do_logout [47] (some [97]) none = none ∧
    (∀ l, (some [(⟨[97], [], 0⟩ : OpenID)] : Option (List OpenID)) = some l →
      SessionEndpoint.do_logout [47] (some [97]) (some [(⟨[97], [], 0⟩ : OpenID)]) =
        some ⟨l.filter (fun o => o.openid ≠ [97]), true, [47]⟩) ∧
    ∀ s2 : Option (List OpenID),
      SessionEndpoint.do_logout [47] none s2 = some ⟨[], true, [47]⟩ :=
  c10_do_logout_selector [47] [97] (some [⟨[97], [], 0⟩]) (by decide)

end DjangoOpenid
